import Mathlib

/-!
# Order-item controller of go-restaurant-management

A shallow embedding of `controllers/orderItemController.go`.

* The aggregation pipeline of `ItemsByOrder` is a pure function of the order
  identifier and the contents of the four collections it reads.
* The driver's cursor is explicit state: `Cursor.All` hands over the documents
  the cursor has not yet delivered and leaves it exhausted.
* A handler is a function to an `Outcome`: what it wrote with `c.JSON`, or the
  Go panic or `log.Fatal` that ended it first.
* Amounts (`float64` in the source) are kept abstract: any carrier with a zero
  and an addition, so nothing below depends on properties of the arithmetic.
-/

set_option autoImplicit false

namespace OrderItemController

/-! ## Stored documents read by the pipeline -/

/-- A document of the `orderItem` collection, with the fields the pipeline reads.
A field that is missing or null is `none`. -/
structure OrderItemDoc where
  _id : String
  order_id : Option String
  food_id : Option String
  quantity : Option String
  deriving DecidableEq, Repr

/-- A document of the `food` collection. -/
structure FoodDoc (α : Type) where
  food_id : Option String
  price : Option α
  name : Option String
  food_image : Option String
  deriving DecidableEq, Repr

/-- A document of the `order` collection. -/
structure OrderDoc where
  order_id : Option String
  table_id : Option String
  deriving DecidableEq, Repr

/-- A document of the `table` collection. -/
structure TableDoc where
  table_id : Option String
  table_number : Option Int
  deriving DecidableEq, Repr

/-- The contents of the store, one list of documents per collection. -/
structure Store (α : Type) where
  orderItem : List OrderItemDoc
  food : List (FoodDoc α)
  order : List OrderDoc
  table : List TableDoc

/-! ## Pipeline stages -/

/-- The stage `$match {order_id: id}`. -/
def matchStage (id : String) (docs : List OrderItemDoc) : List OrderItemDoc :=
  docs.filter (fun d => d.order_id == some id)

/-- The stage `$lookup`: the documents of the foreign collection whose foreign
field equals the local field; a missing local field matches a missing foreign
field. -/
def lookup {β : Type} (foreign : List β) (foreignField : β → Option String)
    (localField : Option String) : List β :=
  foreign.filter (fun f => foreignField f == localField)

/-- The stage `$unwind` with `preserveNullAndEmptyArrays: true`: one output per
element of the joined array, and one output without the field when it is
empty. -/
def unwind {β : Type} (joined : List β) : List (Option β) :=
  match joined with
  | [] => [none]
  | _ :: _ => joined.map some

/-- An order item on its way through the three joins. -/
structure Joined (α : Type) where
  item : OrderItemDoc
  food : Option (FoodDoc α)
  order : Option OrderDoc
  table : Option TableDoc

/-- Lines 64-73: join with `food` on `food_id`, then unwind `$food`. -/
def joinFood {α : Type} (s : Store α) (docs : List OrderItemDoc) : List (Joined α) :=
  docs.flatMap (fun d =>
    (unwind (lookup s.food (fun f => f.food_id) d.food_id)).map
      (fun f => { item := d, food := f, order := none, table := none }))

/-- Lines 74-83: join with `order` on `order_id`, then unwind `$order`. -/
def joinOrder {α : Type} (s : Store α) (docs : List (Joined α)) : List (Joined α) :=
  docs.flatMap (fun d =>
    (unwind (lookup s.order (fun o => o.order_id) d.item.order_id)).map
      (fun o => { d with order := o }))

/-- Lines 84-93: join with `table` on `order.table_id`, then unwind `$table`. -/
def joinTable {α : Type} (s : Store α) (docs : List (Joined α)) : List (Joined α) :=
  docs.flatMap (fun d =>
    (unwind (lookup s.table (fun t => t.table_id)
        (d.order.bind (fun o => o.table_id)))).map
      (fun t => { d with table := t }))

/-- The projected record of lines 94-105. `_id` is kept (only `id` is excluded),
`quantity` is included from the order item, and `total_count: 1` includes a field
that order items do not have. -/
structure Row (α : Type) where
  _id : String
  amount : Option α
  food_name : Option String
  food_image : Option String
  table_number : Option Int
  table_id : Option String
  order_id : Option String
  price : Option α
  quantity : Option String
  deriving DecidableEq, Repr

/-- The first `$project` stage. -/
def project {α : Type} (d : Joined α) : Row α :=
  { _id := d.item._id
    amount := d.food.bind (fun f => f.price)
    food_name := d.food.bind (fun f => f.name)
    food_image := d.food.bind (fun f => f.food_image)
    table_number := d.table.bind (fun t => t.table_number)
    table_id := d.table.bind (fun t => t.table_id)
    order_id := d.order.bind (fun o => o.order_id)
    price := d.food.bind (fun f => f.price)
    quantity := d.item.quantity }

/-- The `_id` of a group: lines 107-111. -/
structure GroupKey where
  order_id : Option String
  table_id : Option String
  table_number : Option Int
  deriving DecidableEq, Repr

/-- The group key of a projected record. -/
def keyOf {α : Type} (r : Row α) : GroupKey :=
  { order_id := r.order_id, table_id := r.table_id, table_number := r.table_number }

/-- The distinct keys of a list, in order of first appearance. -/
def distinctKeys : List GroupKey → List GroupKey
  | [] => []
  | k :: ks => k :: (distinctKeys ks).filter (fun j => decide (j ≠ k))

/-- The accumulator `$sum: "$amount"`: amounts are added from the left, a
missing amount is skipped. -/
def sumAmounts {α : Type} [Zero α] [Add α] (amounts : List (Option α)) : α :=
  amounts.foldl (fun acc a => match a with
    | some x => acc + x
    | none => acc) 0

/-- The output of the `$group` stage. -/
structure Grouped (α : Type) where
  _id : GroupKey
  payment_due : α
  total_count : Nat
  order_items : List (Row α)
  deriving DecidableEq, Repr

/-- The stage `$group` of lines 106-115. -/
def groupStage {α : Type} [Zero α] [Add α] (rows : List (Row α)) : List (Grouped α) :=
  (distinctKeys (rows.map keyOf)).map (fun k =>
    let members := rows.filter (fun r => decide (keyOf r = k))
    { _id := k
      payment_due := sumAmounts (members.map (fun r => r.amount))
      total_count := members.length
      order_items := members })

/-- One element of the result: the final projection of lines 116-122. -/
structure Group (α : Type) where
  _id : GroupKey
  payment_due : α
  total_count : Nat
  table_number : Option Int
  order_items : List (Row α)
  deriving DecidableEq, Repr

/-- The final `$project` stage. -/
def finalProject {α : Type} (g : Grouped α) : Group α :=
  { _id := g._id
    payment_due := g.payment_due
    total_count := g.total_count
    table_number := g._id.table_number
    order_items := g.order_items }

/-- The whole pipeline of lines 62-123, stage after stage. -/
def pipeline {α : Type} [Zero α] [Add α] (id : String) (s : Store α) : List (Group α) :=
  (groupStage ((joinTable s (joinOrder s (joinFood s (matchStage id s.orderItem)))).map
    project)).map finalProject

/-! ## The driver: cursors and faults -/

/-- The cursor `Find` and `Aggregate` return: the documents not yet delivered,
and the error that draining it reports, if any. -/
structure Cursor (β : Type) where
  unread : List β
  fault : Option String

/-- The driver's `Cursor.All(ctx, &results)`: it decodes the documents the cursor
has not yet delivered, overwrites the destination slice completely with exactly
those (documents delivered earlier are not included), and closes the cursor. The
first component is the new value of the destination (or the error), the second
the cursor afterwards; draining an exhausted cursor therefore leaves an empty
destination and reports no error. -/
def Cursor.All {β : Type} (c : Cursor β) : Except String (List β) × Cursor β :=
  match c.fault with
  | some e => (.error e, c)
  | none => (.ok c.unread, { unread := [], fault := none })

/-- What can go wrong between the controller and the store on a read: the error
of the `Find` or `Aggregate` call itself, and the error met while the cursor is
drained. -/
structure Faults where
  call : Option String
  cursor : Option String
  deriving DecidableEq, Repr

/-- The call `orderItemCollection.Aggregate(ctx, pipeline)` of line 124. -/
def Aggregate {α : Type} [Zero α] [Add α] (faults : Faults) (id : String) (s : Store α) :
    Except String (Cursor (Group α)) :=
  match faults.call with
  | some e => .error e
  | none => .ok { unread := pipeline id s, fault := faults.cursor }

/-- The call `orderItemCollection.Find(context.TODO(), bson.M{})` of line 29: the
empty filter selects every document. -/
def Find {δ : Type} (faults : Faults) (docs : List δ) : Except String (Cursor δ) :=
  match faults.call with
  | some e => .error e
  | none => .ok { unread := docs, fault := faults.cursor }

/-- How a Go function with results `(value, err)` ends: it returns, or it
panics. -/
inductive GoResult (β : Type) where
  | returned (value : β) (err : Option String)
  | panic (err : String)
  deriving DecidableEq, Repr

/-- How a handler ends: a JSON payload or a `gin.H{"error": msg}` body written
with `c.JSON`, a panic that unwinds the handler before it wrote anything, or
`log.Fatal`, which exits the process. -/
inductive Outcome (β : Type) where
  | json (status : Nat) (body : β)
  | errorJSON (status : Nat) (msg : String)
  | panic (err : String)
  | fatal (err : String)
  deriving DecidableEq, Repr

/-- The function `ItemsByOrder` of lines 59-136. Lines 128-130 drain the cursor
into `OrderItems`; lines 131-133 drain the same cursor into `OrderItems` once
more. -/
def ItemsByOrder {α : Type} [Zero α] [Add α] (faults : Faults) (id : String) (s : Store α) :
    GoResult (List (Group α)) :=
  match Aggregate faults id s with
  | .error e => .panic e
  | .ok result =>
    match result.All with
    | (.error e, _) => .panic e
    | (.ok _, result) =>
      match result.All with
      | (.error e, _) => .panic e
      | (.ok OrderItems, _) => .returned OrderItems none

/-- The handler `GetOrderItemsByOrder` of lines 45-57. -/
def GetOrderItemsByOrder {α : Type} [Zero α] [Add α] (faults : Faults) (orderId : String)
    (s : Store α) : Outcome (List (Group α)) :=
  match ItemsByOrder faults orderId s with
  | .panic e => .panic e
  | .returned allOrderItems err =>
    match err with
    | some _ => .errorJSON 500 "error occured while listing order items by order ID"
    | none => .json 200 allOrderItems

/-- The handler `GetOrderItems` of lines 25-43. -/
def GetOrderItems {δ : Type} (faults : Faults) (docs : List δ) : Outcome (List δ) :=
  match Find faults docs with
  | .error _ => .errorJSON 500 "error occured while fetching order items list"
  | .ok result =>
    match result.All with
    | (.error e, _) => .fatal e
    | (.ok allOrderItems, _) => .json 200 allOrderItems

/-! ## Records handled by the write handlers -/

/-- A time stamp: whole seconds, which is what the round trip through
`time.RFC3339` keeps. -/
abbrev Time := Nat

/-- A `primitive.ObjectID`, identified by its hexadecimal form. -/
structure ObjectID where
  hex : String
  deriving DecidableEq, Repr

/-- The method `ObjectID.Hex`. -/
def ObjectID.Hex (id : ObjectID) : String := id.hex

/-- Modelled from the spec: the struct `models.OrderItem`, declared outside the
controller. Its fields are those of the persisted record shape (identifier,
order reference, food reference, quantity, unit price, created-at, updated-at,
business-facing order-item id); `Quantity`, `Unit_price` and `Food_id` are
pointers in the controller and `none` stands for `nil`. -/
structure OrderItem (α : Type) where
  ID : ObjectID
  Quantity : Option String
  Unit_price : Option α
  Created_at : Time
  Updated_at : Time
  Food_id : Option String
  Order_item_id : String
  Order_id : String
  deriving DecidableEq, Repr

/-- The zero value of `models.OrderItem`, which `var orderItem models.OrderItem`
declares. -/
def OrderItem.zero {α : Type} : OrderItem α :=
  { ID := { hex := "000000000000000000000000" }
    Quantity := none
    Unit_price := none
    Created_at := 0
    Updated_at := 0
    Food_id := none
    Order_item_id := ""
    Order_id := "" }

/-- Modelled from the spec: the struct `models.Order`, declared outside the
controller, with the two fields the create handler sets (table reference and
order date). -/
structure Order where
  Order_Date : Time
  Table_id : Option String
  deriving DecidableEq, Repr

/-- The request shape of lines 18-21. -/
structure OrderItemPack (α : Type) where
  Table_id : Option String
  Order_items : List (OrderItem α)
  deriving DecidableEq, Repr

/-- The driver's `InsertManyResult`. -/
structure InsertManyResult where
  InsertedIDs : List ObjectID
  deriving DecidableEq, Repr

/-- A BSON value. -/
inductive Value (α : Type) where
  | str (s : String)
  | num (x : α)
  | time (t : Time)
  | oid (id : ObjectID)
  deriving DecidableEq, Repr

/-- A BSON document: fields in order, keyed by name. -/
abbrev Document (α : Type) := List (String × Value α)

/-- The driver's `UpdateResult`. -/
structure UpdateResult where
  MatchedCount : Nat
  ModifiedCount : Nat
  UpsertedCount : Nat
  UpsertedID : Option ObjectID
  deriving DecidableEq, Repr

/-- What the handlers get from outside the controller: the clock (its
successive readings within one request), the generator of object identifiers,
the struct validator, the Order Creator, the rounding helper `toFixed`, the
answer of the store to a batch insert, the decoder of a found document, and the
errors of the point lookup and of the update. -/
structure Env (α : Type) where
  now : Nat → Time
  NewObjectID : Nat → ObjectID
  validate : OrderItem α → Option String
  OrderItemOrderCreator : Order → String
  toFixed : α → Nat → α
  InsertMany : List (OrderItem α) → Except String InsertManyResult
  Decode : Document α → Except String (OrderItem α)
  findOneErr : Option String
  updateErr : Option String

/-! ## CreateOrderItem -/

/-- A call the create handler makes to a collaborator. -/
inductive Call (α : Type) where
  | OrderItemOrderCreator (order : Order)
  | validateStruct (orderItem : OrderItem α)
  | InsertMany (docs : List (OrderItem α))
  deriving DecidableEq, Repr

/-- How the loop of lines 173-189 ends: every item staged, a validation error
(line 178), or the dereference of a nil `Unit_price` (line 186). -/
inductive Staging (α : Type) where
  | staged (orderItemsToBeInserted : List (OrderItem α))
  | invalid (msg : String)
  | nilDereference
  deriving DecidableEq, Repr

/-- The loop of lines 173-189 over the items still to visit; `k` counts the
items already staged, `orderItemsToBeInserted` holds them and `calls` is the
log of calls so far. -/
def stageItems {α : Type} (env : Env α) (order_id : String) :
    List (OrderItem α) → Nat → List (OrderItem α) → List (Call α) →
    List (Call α) × Staging α
  | [], _, orderItemsToBeInserted, calls => (calls, .staged orderItemsToBeInserted)
  | item :: rest, k, orderItemsToBeInserted, calls =>
    let orderItem := { item with Order_id := order_id }
    let calls := calls ++ [Call.validateStruct orderItem]
    match env.validate orderItem with
    | some msg => (calls, .invalid msg)
    | none =>
      let id := env.NewObjectID k
      let orderItem := { orderItem with
        ID := id
        Created_at := env.now (2 * k + 1)
        Updated_at := env.now (2 * k + 2)
        Order_item_id := id.Hex }
      match orderItem.Unit_price with
      | none => (calls, .nilDereference)
      | some price =>
        let num := env.toFixed price 2
        stageItems env order_id rest (k + 1)
          (orderItemsToBeInserted ++ [{ orderItem with Unit_price := some num }]) calls

/-- The handler `CreateOrderItem` of lines 155-201; `body` is what `c.BindJSON`
made of the request body. The result is the log of calls and the outcome. -/
def CreateOrderItem {α : Type} (env : Env α) (body : Except String (OrderItemPack α)) :
    List (Call α) × Outcome InsertManyResult :=
  match body with
  | .error e => ([], .errorJSON 400 e)
  | .ok orderItemPack =>
    let order : Order := { Order_Date := env.now 0, Table_id := orderItemPack.Table_id }
    let order_id := env.OrderItemOrderCreator order
    match stageItems env order_id orderItemPack.Order_items 0 []
        [Call.OrderItemOrderCreator order] with
    | (calls, .invalid msg) => (calls, .errorJSON 400 msg)
    | (calls, .nilDereference) =>
      (calls, .panic "runtime error: invalid memory address or nil pointer dereference")
    | (calls, .staged orderItemsToBeInserted) =>
      let calls := calls ++ [Call.InsertMany orderItemsToBeInserted]
      match env.InsertMany orderItemsToBeInserted with
      | .error e => (calls, .fatal e)
      | .ok insertedOrderItems => (calls, .json 200 insertedOrderItems)

/-! ## UpdateOrderItem and GetOrderItem -/

/-- The value of a field of a document. -/
def Document.get {α : Type} (d : Document α) (key : String) : Option (Value α) :=
  (d.find? (fun p => p.1 == key)).map (fun p => p.2)

/-- Assignment of one field: an existing field is overwritten, a new one is
appended. -/
def Document.set {α : Type} (d : Document α) (key : String) (v : Value α) : Document α :=
  if d.any (fun p => p.1 == key) then
    d.map (fun p => if p.1 == key then (key, v) else p)
  else d ++ [(key, v)]

/-- Whether a document satisfies an equality filter such as
`bson.M{"order_item_id": orderItemId}`. -/
def matchesFilter {α : Type} [DecidableEq α] (filter d : Document α) : Bool :=
  filter.all (fun p => decide (d.get p.1 = some p.2))

/-- The operator `$set`. -/
def applySet {α : Type} (updateObj d : Document α) : Document α :=
  updateObj.foldl (fun acc p => acc.set p.1 p.2) d

/-- The first document that satisfies the filter is updated; `none` when no
document does. -/
def updateFirst {α : Type} [DecidableEq α] (filter updateObj : Document α) :
    List (Document α) → Option (List (Document α))
  | [] => none
  | d :: ds =>
    if matchesFilter filter d then some (applySet updateObj d :: ds)
    else (updateFirst filter updateObj ds).map (fun ds => d :: ds)

/-- The store's `UpdateOne` with `$set` and, when `upsert` is on and nothing
matched, the insertion of a document made of a fresh `_id`, the fields of the
filter and the fields set. -/
def UpdateOne {α : Type} [DecidableEq α] (coll : List (Document α))
    (filter updateObj : Document α) (upsert : Bool) (freshId : ObjectID) :
    List (Document α) × UpdateResult :=
  match updateFirst filter updateObj coll with
  | some coll' =>
    (coll', { MatchedCount := 1, ModifiedCount := if coll' = coll then 0 else 1,
              UpsertedCount := 0, UpsertedID := none })
  | none =>
    if upsert then
      (coll ++ [applySet updateObj (("_id", Value.oid freshId) :: filter)],
        { MatchedCount := 0, ModifiedCount := 0, UpsertedCount := 1,
          UpsertedID := some freshId })
    else (coll, { MatchedCount := 0, ModifiedCount := 0, UpsertedCount := 0,
                  UpsertedID := none })

/-- The filter of line 210. -/
def UpdateOrderItem.filter {α : Type} (orderItemId : String) : Document α :=
  [("order_item_id", Value.str orderItemId)]

/-- The `$set` document of lines 207-226. `orderItem` is declared at line 207 and
nothing decodes the request body into it before its fields are tested. -/
def UpdateOrderItem.updateObj {α : Type} (env : Env α) (_body : OrderItem α) : Document α :=
  let orderItem : OrderItem α := OrderItem.zero
  let updateObj : Document α := []
  let updateObj := match orderItem.Unit_price with
    | some p => updateObj ++ [("unit_price", Value.num p)]
    | none => updateObj
  let updateObj := match orderItem.Quantity with
    | some q => updateObj ++ [("quantity", Value.str q)]
    | none => updateObj
  let updateObj := match orderItem.Food_id with
    | some f => updateObj ++ [("food_id", Value.str f)]
    | none => updateObj
  let orderItem := { orderItem with Updated_at := env.now 0 }
  updateObj ++ [("updated_at", Value.time orderItem.Updated_at)]

/-- The handler `UpdateOrderItem` of lines 203-247 on a collection; `body` is the
decoded form of the request body. The result is the collection afterwards and
the outcome. -/
def UpdateOrderItem {α : Type} [DecidableEq α] (env : Env α) (coll : List (Document α))
    (orderItemId : String) (body : OrderItem α) :
    List (Document α) × Outcome UpdateResult :=
  let filter : Document α := UpdateOrderItem.filter orderItemId
  let updateObj := UpdateOrderItem.updateObj env body
  let upsert := true
  match env.updateErr with
  | some _ => (coll, .errorJSON 500 "Order item update failed")
  | none =>
    match UpdateOne coll filter updateObj upsert (env.NewObjectID 0) with
    | (coll', result) => (coll', .json 200 result)

/-- The filter of line 145. -/
def GetOrderItem.filter {α : Type} (orderItemId : String) : Document α :=
  [("orderItem_id", Value.str orderItemId)]

/-- The store's `FindOne`: the first document that satisfies the filter, an error
when the lookup fails or nothing matches. -/
def FindOne {α : Type} [DecidableEq α] (err : Option String) (coll : List (Document α))
    (filter : Document α) : Except String (Document α) :=
  match err with
  | some e => .error e
  | none =>
    match coll.find? (fun d => matchesFilter filter d) with
    | some d => .ok d
    | none => .error "mongo: no documents in result"

/-- The handler `GetOrderItem` of lines 138-153. -/
def GetOrderItem {α : Type} [DecidableEq α] (env : Env α) (coll : List (Document α))
    (orderItemId : String) : Outcome (OrderItem α) :=
  match (FindOne env.findOneErr coll (GetOrderItem.filter orderItemId)).bind env.Decode with
  | .error _ => .errorJSON 500 "error occured while fetching order item list"
  | .ok orderItem => .json 200 orderItem

/-! ## Sample data -/

/-- A store with one order at one table and two items that both resolve. -/
def sampleStore : Store Int :=
  { orderItem :=
      [ { _id := "i1", order_id := some "o1", food_id := some "f1", quantity := some "M" },
        { _id := "i2", order_id := some "o1", food_id := some "f2", quantity := some "L" } ]
    food :=
      [ { food_id := some "f1", price := some 5, name := some "soup", food_image := none },
        { food_id := some "f2", price := some 7, name := some "rice",
          food_image := some "rice.png" } ]
    order := [ { order_id := some "o1", table_id := some "t1" } ]
    table := [ { table_id := some "t1", table_number := some 4 } ] }

/-- A store whose only order item names a food that does not exist. -/
def orphanStore : Store Int :=
  { orderItem :=
      [ { _id := "i9", order_id := some "o7", food_id := some "nowhere", quantity := some "S" } ]
    food := [ { food_id := some "f1", price := some 5, name := some "soup", food_image := none } ]
    order := [ { order_id := some "o7", table_id := some "t1" } ]
    table := [ { table_id := some "t1", table_number := some 4 } ] }

/-- A store that answers without error. -/
def noFaults : Faults := { call := none, cursor := none }

/-- Modelled from the spec: the struct tags of `models.OrderItem`, which tell
`validate.Struct` what to check, are declared outside the controller; quantity
and food reference are required (validated) on creation. -/
def requiredFields {α : Type} (orderItem : OrderItem α) : Option String :=
  if orderItem.Quantity.isNone then some "Quantity is required"
  else if orderItem.Food_id.isNone then some "Food_id is required"
  else none

/-- Modelled from the spec: the helper `toFixed(num, precision)`, declared
outside the controller; it rounds a price to the given number of decimal places
(9.996 gives 10.00 and 9.994 gives 9.99 at two places). Amounts are exact
rationals here, and a tie goes up. -/
def toFixed (num : ℚ) (precision : Nat) : ℚ :=
  ((round (num * 10 ^ precision) : ℤ) : ℚ) / 10 ^ precision

/-- The answer of the store to a batch insert in the concrete requests: the
identifiers of the documents, and an error for an empty batch. -/
def insertAll {α : Type} (docs : List (OrderItem α)) : Except String InsertManyResult :=
  match docs with
  | [] => .error "must provide at least one element in input slice"
  | _ :: _ => .ok { InsertedIDs := docs.map (fun d => d.ID) }

/-- An environment for concrete requests; amounts are whole hundredths. -/
def sampleEnv : Env Int :=
  { now := fun k => 1700000000 + k
    NewObjectID := fun k => { hex := String.mk (List.replicate (k + 1) 'a') }
    validate := requiredFields
    OrderItemOrderCreator := fun order => "order-" ++ order.Table_id.getD ""
    toFixed := fun x _ => x
    InsertMany := insertAll
    Decode := fun _ => .error "cannot decode"
    findOneErr := none
    updateErr := none }

/-- An environment whose amounts are exact decimals, rounded by `toFixed`. -/
def decimalEnv : Env ℚ :=
  { now := fun k => 1700000000 + k
    NewObjectID := fun k => { hex := String.mk (List.replicate (k + 1) 'a') }
    validate := requiredFields
    OrderItemOrderCreator := fun order => "order-" ++ order.Table_id.getD ""
    toFixed := toFixed
    InsertMany := insertAll
    Decode := fun _ => .error "cannot decode"
    findOneErr := none
    updateErr := none }

/-- A request item that passes `requiredFields`. -/
def goodItem : OrderItem Int :=
  { ID := { hex := "" }, Quantity := some "M", Unit_price := some 999, Created_at := 0,
    Updated_at := 0, Food_id := some "f1", Order_item_id := "", Order_id := "" }

/-- A request item without quantity, which `requiredFields` rejects. -/
def badItem : OrderItem Int :=
  { ID := { hex := "" }, Quantity := none, Unit_price := some 450, Created_at := 0,
    Updated_at := 0, Food_id := some "f2", Order_item_id := "", Order_id := "" }

/-- A request item priced 9.996 or 9.994, as `price` says. -/
def decimalItem (price : ℚ) : OrderItem ℚ :=
  { ID := { hex := "" }, Quantity := some "M", Unit_price := some price, Created_at := 0,
    Updated_at := 0, Food_id := some "f1", Order_item_id := "", Order_id := "" }

/-- A pack of two items, priced 9.996 and 9.994. -/
def decimalPack : OrderItemPack ℚ :=
  { Table_id := some "t1",
    Order_items := [decimalItem (9996 / 1000), decimalItem (9994 / 1000)] }

/-- A pack of two items that pass validation. -/
def goodPack : OrderItemPack Int :=
  { Table_id := some "t1", Order_items := [goodItem, goodItem] }

/-- A pack whose second item fails validation, between two that pass. -/
def mixedPack : OrderItemPack Int :=
  { Table_id := some "t1", Order_items := [goodItem, badItem, goodItem] }

/-- A pack whose only item fails validation. -/
def rejectedPack : OrderItemPack Int :=
  { Table_id := some "t1", Order_items := [badItem] }

/-- An update body that supplies only the quantity. -/
def quantityOnly : OrderItem Int :=
  { ID := { hex := "" }, Quantity := some "L", Unit_price := none, Created_at := 0,
    Updated_at := 0, Food_id := none, Order_item_id := "", Order_id := "" }

/-! ## Properties stated by the theorems -/

/-- The relation between an item of the pack and the record staged for it: the
record carries the shared order identifier, the item's quantity and food
reference, its own identifier in both forms, and the unit price passed through
`toFixed(_, 2)`. -/
def StagedFrom {α : Type} (env : Env α) (order_id : String) (item record : OrderItem α) :
    Prop :=
  record.Order_id = order_id ∧ record.Quantity = item.Quantity ∧
    record.Food_id = item.Food_id ∧ record.Order_item_id = record.ID.Hex ∧
    ∃ price, item.Unit_price = some price ∧ record.Unit_price = some (env.toFixed price 2)

/-- The record lines 182-187 build for the item visited at turn `k`, whose unit
price is `price`. -/
def recordOf {α : Type} (env : Env α) (order_id : String) (k : Nat) (item : OrderItem α)
    (price : α) : OrderItem α :=
  { ID := env.NewObjectID k, Quantity := item.Quantity,
    Unit_price := some (env.toFixed price 2),
    Created_at := env.now (2 * k + 1), Updated_at := env.now (2 * k + 2),
    Food_id := item.Food_id, Order_item_id := (env.NewObjectID k).Hex,
    Order_id := order_id }

/-- A create request that is a client input error: the body does not decode, or
some item of the pack fails validation. -/
def ClientInputError {α : Type} (env : Env α) (body : Except String (OrderItemPack α)) :
    Prop :=
  match body with
  | .error _ => True
  | .ok orderItemPack =>
    ∃ item ∈ orderItemPack.Order_items,
      env.validate { item with
        Order_id := env.OrderItemOrderCreator
          { Order_Date := env.now 0, Table_id := orderItemPack.Table_id } } ≠ none

/-- The food an order item refers to: the first document of `food` with its
`food_id`. -/
def foodOf {α : Type} (s : Store α) (d : OrderItemDoc) : Option (FoodDoc α) :=
  s.food.find? (fun f => f.food_id == d.food_id)

/-- The validation call the loop makes for an item of the pack. -/
def validationOf {α : Type} (order_id : String) (item : OrderItem α) : Call α :=
  Call.validateStruct { item with Order_id := order_id }

/-- The order the create handler hands to the Order Creator. -/
def orderOf {α : Type} (env : Env α) (orderItemPack : OrderItemPack α) : Order :=
  { Order_Date := env.now 0, Table_id := orderItemPack.Table_id }

/-! ## Lemmas on the staging loop -/

/-- One turn of the loop for an item that passes validation and has a unit
price. -/
theorem stageItems_cons_valid {α : Type} (env : Env α) (order_id : String)
    (item : OrderItem α) (rest : List (OrderItem α)) (k : Nat) (acc : List (OrderItem α))
    (calls : List (Call α)) (price : α)
    (hvalid : env.validate { item with Order_id := order_id } = none)
    (hprice : item.Unit_price = some price) :
    stageItems env order_id (item :: rest) k acc calls =
      stageItems env order_id rest (k + 1)
        (acc ++ [recordOf env order_id k item price])
        (calls ++ [validationOf order_id item]) := by
  obtain ⟨id, quantity, unitPrice, created, updated, food, itemId, orderId⟩ := item
  simp only at hprice
  subst hprice
  simp only at hvalid
  simp only [stageItems, hvalid, validationOf, recordOf]

/-- One turn of the loop for an item that validation rejects. -/
theorem stageItems_cons_invalid {α : Type} (env : Env α) (order_id : String)
    (item : OrderItem α) (rest : List (OrderItem α)) (k : Nat) (acc : List (OrderItem α))
    (calls : List (Call α)) (msg : String)
    (hinvalid : env.validate { item with Order_id := order_id } = some msg) :
    stageItems env order_id (item :: rest) k acc calls =
      (calls ++ [validationOf order_id item], Staging.invalid msg) := by
  simp only [stageItems, hinvalid, validationOf]

/-- One turn of the loop for an item that passes validation without a unit
price. -/
theorem stageItems_cons_nil {α : Type} (env : Env α) (order_id : String)
    (item : OrderItem α) (rest : List (OrderItem α)) (k : Nat) (acc : List (OrderItem α))
    (calls : List (Call α))
    (hvalid : env.validate { item with Order_id := order_id } = none)
    (hprice : item.Unit_price = none) :
    stageItems env order_id (item :: rest) k acc calls =
      (calls ++ [validationOf order_id item], Staging.nilDereference) := by
  obtain ⟨id, quantity, unitPrice, created, updated, food, itemId, orderId⟩ := item
  simp only at hprice
  subst hprice
  simp only at hvalid
  simp only [stageItems, hvalid, validationOf]

/-- When every item passes validation and has a unit price, the loop validates
each item once, in order, and stages one record per item. -/
theorem stageItems_all_valid {α : Type} (env : Env α) (order_id : String)
    (items : List (OrderItem α)) :
    ∀ (k : Nat) (acc : List (OrderItem α)) (calls : List (Call α)),
      (∀ item ∈ items, env.validate { item with Order_id := order_id } = none) →
      (∀ item ∈ items, item.Unit_price ≠ none) →
      ∃ batch, stageItems env order_id items k acc calls =
          (calls ++ items.map (validationOf order_id), Staging.staged (acc ++ batch)) ∧
        List.Forall₂ (StagedFrom env order_id) items batch := by
  induction items with
  | nil =>
    intro k acc calls _ _
    exact ⟨[], by simp [stageItems], List.Forall₂.nil⟩
  | cons item rest ih =>
    intro k acc calls hvalid hprice
    have hitem := hvalid item (List.mem_cons_self _ _)
    obtain ⟨price, hp⟩ := Option.ne_none_iff_exists'.mp (hprice item (List.mem_cons_self _ _))
    rw [stageItems_cons_valid env order_id item rest k acc calls price hitem hp]
    obtain ⟨batch, hrun, hrel⟩ := ih (k + 1) _ (calls ++ [validationOf order_id item])
      (fun it hit => hvalid it (List.mem_cons_of_mem _ hit))
      (fun it hit => hprice it (List.mem_cons_of_mem _ hit))
    refine ⟨recordOf env order_id k item price :: batch, ?_,
      List.Forall₂.cons ⟨rfl, rfl, rfl, rfl, price, hp, rfl⟩ hrel⟩
    rw [hrun]
    simp

/-- When an item fails validation after items that all passed with a unit price,
the loop stops at it: it has validated the items up to and including that one,
and no other. -/
theorem stageItems_first_invalid {α : Type} (env : Env α) (order_id : String)
    (bad : OrderItem α) (post : List (OrderItem α))
    (msg : String) (hbad : env.validate { bad with Order_id := order_id } = some msg)
    (pre : List (OrderItem α)) :
    ∀ (k : Nat) (acc : List (OrderItem α)) (calls : List (Call α)),
      (∀ item ∈ pre, env.validate { item with Order_id := order_id } = none) →
      (∀ item ∈ pre, item.Unit_price ≠ none) →
      stageItems env order_id (pre ++ bad :: post) k acc calls =
        (calls ++ (pre ++ [bad]).map (validationOf order_id), Staging.invalid msg) := by
  induction pre with
  | nil =>
    intro k acc calls _ _
    simp [stageItems_cons_invalid env order_id bad post k acc calls msg hbad]
  | cons item rest ih =>
    intro k acc calls hvalid hprice
    have hitem := hvalid item (List.mem_cons_self _ _)
    obtain ⟨price, hp⟩ := Option.ne_none_iff_exists'.mp (hprice item (List.mem_cons_self _ _))
    rw [List.cons_append,
      stageItems_cons_valid env order_id item _ k acc calls price hitem hp,
      ih (k + 1) _ _ (fun it hit => hvalid it (List.mem_cons_of_mem _ hit))
        (fun it hit => hprice it (List.mem_cons_of_mem _ hit))]
    simp

/-- Whenever the loop stages its items, the records it added stand, position by
position, in the relation `StagedFrom` to the items: each stores `toFixed` of the
unit price its item had. -/
theorem stageItems_staged {α : Type} (env : Env α) (order_id : String)
    (items : List (OrderItem α)) :
    ∀ (k : Nat) (acc : List (OrderItem α)) (calls calls' : List (Call α))
      (batch : List (OrderItem α)),
      stageItems env order_id items k acc calls = (calls', Staging.staged batch) →
      ∃ added, batch = acc ++ added ∧ List.Forall₂ (StagedFrom env order_id) items added := by
  induction items with
  | nil =>
    intro k acc calls calls' batch h
    simp only [stageItems, Prod.mk.injEq, Staging.staged.injEq] at h
    exact ⟨[], by simp [h.2], List.Forall₂.nil⟩
  | cons item rest ih =>
    intro k acc calls calls' batch h
    cases hv : env.validate { item with Order_id := order_id } with
    | some msg =>
      rw [stageItems_cons_invalid env order_id item rest k acc calls msg hv] at h
      simp at h
    | none =>
      cases hp : item.Unit_price with
      | none =>
        rw [stageItems_cons_nil env order_id item rest k acc calls hv hp] at h
        simp at h
      | some price =>
        rw [stageItems_cons_valid env order_id item rest k acc calls price hv hp] at h
        obtain ⟨added, hbatch, hrel⟩ := ih (k + 1) _ _ calls' batch h
        exact ⟨recordOf env order_id k item price :: added, by simp [hbatch],
          List.Forall₂.cons ⟨rfl, rfl, rfl, rfl, price, hp, rfl⟩ hrel⟩

/-- A list with an element that satisfies `p` splits at the first such
element. -/
theorem split_at_first {β : Type} (p : β → Prop) (l : List β) (h : ∃ x ∈ l, p x) :
    ∃ pre x post, l = pre ++ x :: post ∧ (∀ y ∈ pre, ¬ p y) ∧ p x := by
  classical
  induction l with
  | nil => simp at h
  | cons a rest ih =>
    by_cases ha : p a
    · exact ⟨[], a, rest, rfl, by simp, ha⟩
    · obtain ⟨x, hx, hpx⟩ := h
      have hrest : ∃ x ∈ rest, p x := by
        rcases List.mem_cons.mp hx with rfl | hmem
        · exact absurd hpx ha
        · exact ⟨x, hmem, hpx⟩
      obtain ⟨pre, y, post, hsplit, hpre, hy⟩ := ih hrest
      refine ⟨a :: pre, y, post, by simp [hsplit], ?_, hy⟩
      intro z hz
      rcases List.mem_cons.mp hz with rfl | hmem
      · exact ha
      · exact hpre z hmem

/-- Whatever the items, the loop only adds validation calls to the log, and it
stages every item only if every item passed validation. -/
theorem stageItems_calls {α : Type} (env : Env α) (order_id : String)
    (items : List (OrderItem α)) :
    ∀ (k : Nat) (acc : List (OrderItem α)) (calls : List (Call α)),
      ∃ validations, (stageItems env order_id items k acc calls).1 = calls ++ validations ∧
        (∀ c ∈ validations, ∃ orderItem, c = Call.validateStruct orderItem) ∧
        ((∃ item ∈ items, env.validate { item with Order_id := order_id } ≠ none) →
          ∀ batch, (stageItems env order_id items k acc calls).2 ≠ Staging.staged batch) := by
  induction items with
  | nil =>
    intro k acc calls
    exact ⟨[], by simp [stageItems], by simp, by simp⟩
  | cons item rest ih =>
    intro k acc calls
    cases hv : env.validate { item with Order_id := order_id } with
    | some msg =>
      rw [stageItems_cons_invalid env order_id item rest k acc calls msg hv]
      exact ⟨[validationOf order_id item], rfl, by simp [validationOf], by simp⟩
    | none =>
      cases hp : item.Unit_price with
      | none =>
        rw [stageItems_cons_nil env order_id item rest k acc calls hv hp]
        exact ⟨[validationOf order_id item], rfl, by simp [validationOf], by simp⟩
      | some price =>
        rw [stageItems_cons_valid env order_id item rest k acc calls price hv hp]
        obtain ⟨vs, hcalls, hshape, hstop⟩ := ih (k + 1)
          (acc ++ [recordOf env order_id k item price])
          (calls ++ [validationOf order_id item])
        refine ⟨validationOf order_id item :: vs, by simp [hcalls], ?_, ?_⟩
        · intro c hc
          rcases List.mem_cons.mp hc with rfl | hmem
          · exact ⟨_, rfl⟩
          · exact hshape c hmem
        · rintro ⟨it, hit, hne⟩
          apply hstop
          rcases List.mem_cons.mp hit with rfl | hmem
          · exact absurd hv hne
          · exact ⟨it, hmem, hne⟩

/-! ## CreateOrderItem: the create flow -/

/-- The create flow on a pack of N items that all pass validation and all carry a
unit price: the Order Creator is called exactly once, with the table reference of
the pack, and then the batch insert exactly once, with exactly N records in pack
order, each carrying the order identifier the Order Creator returned; N = 0
included. The only other calls are the N validations. -/
theorem CreateOrderItem_one_order_one_batch {α : Type} (env : Env α)
    (orderItemPack : OrderItemPack α)
    (hvalid : ∀ item ∈ orderItemPack.Order_items,
      env.validate { item with
        Order_id := env.OrderItemOrderCreator (orderOf env orderItemPack) } = none)
    (hprice : ∀ item ∈ orderItemPack.Order_items, item.Unit_price ≠ none) :
    ∃ batch,
      (CreateOrderItem env (.ok orderItemPack)).1 =
        Call.OrderItemOrderCreator (orderOf env orderItemPack) ::
          (orderItemPack.Order_items.map
              (validationOf (env.OrderItemOrderCreator (orderOf env orderItemPack))) ++
            [Call.InsertMany batch]) ∧
      (orderOf env orderItemPack).Table_id = orderItemPack.Table_id ∧
      batch.length = orderItemPack.Order_items.length ∧
      List.Forall₂ (StagedFrom env (env.OrderItemOrderCreator (orderOf env orderItemPack)))
        orderItemPack.Order_items batch := by
  obtain ⟨batch, hrun, hrel⟩ := stageItems_all_valid env
    (env.OrderItemOrderCreator (orderOf env orderItemPack)) orderItemPack.Order_items 0 []
    [Call.OrderItemOrderCreator (orderOf env orderItemPack)] hvalid hprice
  refine ⟨batch, ?_, rfl, hrel.length_eq.symm, hrel⟩
  simp only [CreateOrderItem]
  rw [show ({ Order_Date := env.now 0, Table_id := orderItemPack.Table_id } : Order) =
    orderOf env orderItemPack from rfl, hrun]
  simp only [List.nil_append, List.singleton_append, List.cons_append]
  cases env.InsertMany batch <;> rfl

/-- The create flow on a pack with an item that fails validation, when the items
before the first failing one carry a unit price: the answer is 400 with the
validation error of the first failing item; the calls are the Order Creator and
the validations of the items up to and including that one, so the batch insert
is never called and the items after the first failing one are not validated. -/
theorem CreateOrderItem_rejects_invalid_pack {α : Type} (env : Env α)
    (orderItemPack : OrderItemPack α)
    (hinvalid : ∃ item ∈ orderItemPack.Order_items,
      env.validate { item with
        Order_id := env.OrderItemOrderCreator (orderOf env orderItemPack) } ≠ none)
    (hprice : ∀ item ∈ orderItemPack.Order_items, item.Unit_price ≠ none) :
    ∃ pre bad post msg,
      orderItemPack.Order_items = pre ++ bad :: post ∧
      (∀ item ∈ pre, env.validate { item with
        Order_id := env.OrderItemOrderCreator (orderOf env orderItemPack) } = none) ∧
      env.validate { bad with
        Order_id := env.OrderItemOrderCreator (orderOf env orderItemPack) } = some msg ∧
      CreateOrderItem env (.ok orderItemPack) =
        (Call.OrderItemOrderCreator (orderOf env orderItemPack) ::
            (pre ++ [bad]).map
              (validationOf (env.OrderItemOrderCreator (orderOf env orderItemPack))),
          Outcome.errorJSON 400 msg) ∧
      ∀ docs, Call.InsertMany docs ∉ (CreateOrderItem env (.ok orderItemPack)).1 := by
  obtain ⟨pre, bad, post, hsplit, hpre, hbad⟩ := split_at_first
    (fun item => env.validate { item with
      Order_id := env.OrderItemOrderCreator (orderOf env orderItemPack) } ≠ none)
    orderItemPack.Order_items hinvalid
  obtain ⟨msg, hmsg⟩ := Option.ne_none_iff_exists'.mp hbad
  have hpre' : ∀ item ∈ pre, env.validate { item with
      Order_id := env.OrderItemOrderCreator (orderOf env orderItemPack) } = none :=
    fun item hitem => not_not.mp (hpre item hitem)
  have hrun := stageItems_first_invalid env
    (env.OrderItemOrderCreator (orderOf env orderItemPack)) bad post msg hmsg pre 0 []
    [Call.OrderItemOrderCreator (orderOf env orderItemPack)] hpre'
    (fun item hitem => hprice item (by rw [hsplit]; exact List.mem_append_left _ hitem))
  have hresult : CreateOrderItem env (.ok orderItemPack) =
      (Call.OrderItemOrderCreator (orderOf env orderItemPack) ::
          (pre ++ [bad]).map
            (validationOf (env.OrderItemOrderCreator (orderOf env orderItemPack))),
        Outcome.errorJSON 400 msg) := by
    simp only [CreateOrderItem]
    rw [show ({ Order_Date := env.now 0, Table_id := orderItemPack.Table_id } : Order) =
      orderOf env orderItemPack from rfl, hsplit, hrun]
    simp
  refine ⟨pre, bad, post, msg, hsplit, hpre', hmsg, hresult, ?_⟩
  intro docs hmem
  rw [hresult] at hmem
  simp [validationOf] at hmem

/-- The create flow on the sample pack whose second item has no quantity, all
three items carrying a unit price: 400 after the Order Creator and two
validations. -/
theorem CreateOrderItem_rejects_mixed_pack :
    CreateOrderItem sampleEnv (.ok mixedPack) =
      ([Call.OrderItemOrderCreator { Order_Date := 1700000000, Table_id := some "t1" },
        validationOf "order-t1" goodItem, validationOf "order-t1" badItem],
       Outcome.errorJSON 400 "Quantity is required") := by
  decide

/-- Every record `CreateOrderItem` hands to the batch insert stores `toFixed(p, 2)`
for the unit price `p` of the item at its position in the pack, whatever the
validator and the rounding helper. -/
theorem CreateOrderItem_stores_toFixed {α : Type} (env : Env α)
    (orderItemPack : OrderItemPack α) (batch : List (OrderItem α))
    (hcall : Call.InsertMany batch ∈ (CreateOrderItem env (.ok orderItemPack)).1) :
    List.Forall₂ (StagedFrom env (env.OrderItemOrderCreator (orderOf env orderItemPack)))
      orderItemPack.Order_items batch := by
  obtain ⟨validations, hcalls, hshape, -⟩ := stageItems_calls env
    (env.OrderItemOrderCreator (orderOf env orderItemPack)) orderItemPack.Order_items 0 []
    [Call.OrderItemOrderCreator (orderOf env orderItemPack)]
  have hstaged := stageItems_staged env
    (env.OrderItemOrderCreator (orderOf env orderItemPack)) orderItemPack.Order_items 0 []
    [Call.OrderItemOrderCreator (orderOf env orderItemPack)]
  simp only [CreateOrderItem] at hcall
  rw [show ({ Order_Date := env.now 0, Table_id := orderItemPack.Table_id } : Order) =
    orderOf env orderItemPack from rfl] at hcall
  rcases hrun : stageItems env (env.OrderItemOrderCreator (orderOf env orderItemPack))
    orderItemPack.Order_items 0 [] [Call.OrderItemOrderCreator (orderOf env orderItemPack)]
    with ⟨calls, staging⟩
  rw [hrun] at hcall hcalls
  simp only at hcalls
  have hnot : Call.InsertMany batch ∉ calls := by
    rw [hcalls]
    intro hmem
    rcases List.mem_append.mp hmem with h | h
    · simp at h
    · obtain ⟨orderItem, horderItem⟩ := hshape _ h
      cases horderItem
  cases staging with
  | invalid msg => exact absurd hcall hnot
  | nilDereference => exact absurd hcall hnot
  | staged staged =>
    obtain ⟨added, hadded, hrel⟩ := hstaged calls staged hrun
    have hmem : Call.InsertMany batch ∈ calls ++ [Call.InsertMany staged] := by
      cases hins : env.InsertMany staged <;> simpa [hins] using hcall
    rcases List.mem_append.mp hmem with h | h
    · exact absurd h hnot
    · simp only [List.mem_singleton, Call.InsertMany.injEq] at h
      rw [h, hadded]
      simpa using hrel

/-- The rounding of the two prices the spec names: 9.996 gives 10.00 and 9.994
gives 9.99. -/
theorem toFixed_examples : toFixed (9996 / 1000) 2 = 10 ∧ toFixed (9994 / 1000) 2 = 999 / 100 := by
  unfold toFixed
  have h1 : round ((9996 / 1000 : ℚ) * 10 ^ 2) = 1000 := by
    rw [round_eq, Int.floor_eq_iff]
    norm_num
  have h2 : round ((9994 / 1000 : ℚ) * 10 ^ 2) = 999 := by
    rw [round_eq, Int.floor_eq_iff]
    norm_num
  rw [h1, h2]
  norm_num

/-- The create flow on the pack priced 9.996 and 9.994: the batch insert receives
two records, priced 10.00 and 9.99. -/
theorem CreateOrderItem_rounds_sample_prices :
    ∃ first second,
      Call.InsertMany [first, second] ∈ (CreateOrderItem decimalEnv (.ok decimalPack)).1 ∧
      first.Unit_price = some 10 ∧ second.Unit_price = some (999 / 100) := by
  have hvalid : ∀ item ∈ decimalPack.Order_items,
      decimalEnv.validate { item with
        Order_id := decimalEnv.OrderItemOrderCreator (orderOf decimalEnv decimalPack) } =
          none := by
    intro item hitem
    simp only [decimalPack, List.mem_cons, List.mem_singleton, List.not_mem_nil,
      or_false] at hitem
    rcases hitem with rfl | rfl <;> rfl
  have hprice : ∀ item ∈ decimalPack.Order_items, item.Unit_price ≠ none := by
    intro item hitem
    simp only [decimalPack, List.mem_cons, List.mem_singleton, List.not_mem_nil,
      or_false] at hitem
    rcases hitem with rfl | rfl <;> simp [decimalItem]
  obtain ⟨batch, hcalls, -, -, hrel⟩ :=
    CreateOrderItem_one_order_one_batch decimalEnv decimalPack hvalid hprice
  have hitems : decimalPack.Order_items =
      [decimalItem (9996 / 1000), decimalItem (9994 / 1000)] := rfl
  rw [hitems] at hrel
  obtain ⟨first, rest, hfirst, hrest, rfl⟩ := List.forall₂_cons_left_iff.mp hrel
  obtain ⟨second, rest', hsecond, hnil, rfl⟩ := List.forall₂_cons_left_iff.mp hrest
  have hempty : rest' = [] := List.forall₂_nil_left_iff.mp hnil
  subst hempty
  refine ⟨first, second, by rw [hcalls]; simp, ?_, ?_⟩
  · obtain ⟨-, -, -, -, price, hp, hstored⟩ := hfirst
    simp only [decimalItem, Option.some.injEq] at hp
    rw [hstored, ← hp]
    exact congrArg some toFixed_examples.1
  · obtain ⟨-, -, -, -, price, hp, hstored⟩ := hsecond
    simp only [decimalItem, Option.some.injEq] at hp
    rw [hstored, ← hp]
    exact congrArg some toFixed_examples.2

/-- C6, as stated, fails: the sample pack whose only item has no quantity is
answered with 400, and the Order Creator has been called by then. -/
theorem CreateOrderItem_creates_order_before_rejecting :
    ClientInputError sampleEnv (.ok rejectedPack) ∧
    (CreateOrderItem sampleEnv (.ok rejectedPack)).2 =
      Outcome.errorJSON 400 "Quantity is required" ∧
    Call.OrderItemOrderCreator { Order_Date := 1700000000, Table_id := some "t1" } ∈
      (CreateOrderItem sampleEnv (.ok rejectedPack)).1 :=
  ⟨⟨badItem, by simp [rejectedPack], by decide⟩, by decide, by decide⟩

/-- C6, amended: on a client input error the batch insert is never called. When
the body does not decode, nothing is called and the answer is 400; when some item
fails validation, the Order Creator has been called exactly once, first, and
every other call is a validation. -/
theorem CreateOrderItem_client_error_calls {α : Type} (env : Env α)
    (body : Except String (OrderItemPack α)) (hclient : ClientInputError env body) :
    (∀ docs, Call.InsertMany docs ∉ (CreateOrderItem env body).1) ∧
    match body with
    | .error e => CreateOrderItem env body = ([], Outcome.errorJSON 400 e)
    | .ok orderItemPack =>
      ∃ validations,
        (CreateOrderItem env body).1 =
          Call.OrderItemOrderCreator (orderOf env orderItemPack) :: validations ∧
        ∀ c ∈ validations, ∃ orderItem, c = Call.validateStruct orderItem := by
  cases body with
  | error e => exact ⟨by simp [CreateOrderItem], rfl⟩
  | ok orderItemPack =>
    obtain ⟨validations, hcalls, hshape, hstop⟩ := stageItems_calls env
      (env.OrderItemOrderCreator (orderOf env orderItemPack)) orderItemPack.Order_items 0 []
      [Call.OrderItemOrderCreator (orderOf env orderItemPack)]
    have hnot := hstop hclient
    have hlog : (CreateOrderItem env (.ok orderItemPack)).1 =
        Call.OrderItemOrderCreator (orderOf env orderItemPack) :: validations := by
      simp only [CreateOrderItem]
      rw [show ({ Order_Date := env.now 0, Table_id := orderItemPack.Table_id } : Order) =
        orderOf env orderItemPack from rfl]
      rcases hrun : stageItems env (env.OrderItemOrderCreator (orderOf env orderItemPack))
        orderItemPack.Order_items 0 [] [Call.OrderItemOrderCreator (orderOf env orderItemPack)]
        with ⟨calls, staging⟩
      rw [hrun] at hcalls hnot
      simp only at hcalls hnot
      cases staging with
      | staged batch => exact absurd rfl (hnot batch)
      | invalid msg => simpa using hcalls
      | nilDereference => simpa using hcalls
    refine ⟨?_, validations, hlog, hshape⟩
    intro docs hmem
    rw [hlog] at hmem
    rcases List.mem_cons.mp hmem with h | h
    · cases h
    · obtain ⟨orderItem, horderItem⟩ := hshape _ h
      cases horderItem

/-- The amended C6 on the sample pack whose second item has no quantity. -/
theorem CreateOrderItem_client_error_calls_witness :
    ClientInputError sampleEnv (.ok mixedPack) ∧
    (∀ docs, Call.InsertMany docs ∉ (CreateOrderItem sampleEnv (.ok mixedPack)).1) ∧
    ∃ validations,
      (CreateOrderItem sampleEnv (.ok mixedPack)).1 =
        Call.OrderItemOrderCreator (orderOf sampleEnv mixedPack) :: validations ∧
      ∀ c ∈ validations, ∃ orderItem, c = Call.validateStruct orderItem :=
  have hclient : ClientInputError sampleEnv (.ok mixedPack) :=
    ⟨badItem, by simp [mixedPack], by decide⟩
  ⟨hclient, CreateOrderItem_client_error_calls sampleEnv (.ok mixedPack) hclient⟩

/-! ## The pipeline as a function of the store -/

/-- A `$lookup` on a field that is a unique key of the foreign collection yields
exactly the document that carries the value. -/
theorem lookup_unique {β : Type} (key : β → Option String) (loc : Option String) (x : β)
    (hkey : key x = loc) :
    ∀ foreign : List β, (foreign.map key).Nodup → x ∈ foreign → lookup foreign key loc = [x] := by
  intro foreign
  induction foreign with
  | nil => intro _ h; simp at h
  | cons a rest ih =>
    intro hnodup hmem
    rw [List.map_cons, List.nodup_cons] at hnodup
    obtain ⟨hnotin, hrest⟩ := hnodup
    rcases List.mem_cons.mp hmem with rfl | hin
    · have hnone : lookup rest key loc = [] := by
        unfold lookup
        rw [List.filter_eq_nil_iff]
        intro y hy hyk
        apply hnotin
        have hy' : key y = loc := by simpa using hyk
        rw [hkey, ← hy']
        exact List.mem_map_of_mem key hy
      unfold lookup at hnone ⊢
      simp [List.filter_cons, hkey, hnone]
    · have hne : key a ≠ loc := by
        intro h
        apply hnotin
        rw [h, ← hkey]
        exact List.mem_map_of_mem key hin
      have := ih hrest hin
      unfold lookup at this ⊢
      simp [List.filter_cons, hne, this]

/-- The key search of `foodOf` on a unique key. -/
theorem find_unique {β : Type} (key : β → Option String) (loc : Option String) (x : β)
    (hkey : key x = loc) (foreign : List β) (hnodup : (foreign.map key).Nodup)
    (hmem : x ∈ foreign) : foreign.find? (fun f => key f == loc) = some x := by
  have h := lookup_unique key loc x hkey foreign hnodup hmem
  unfold lookup at h
  induction foreign with
  | nil => simp at hmem
  | cons a rest ih =>
    by_cases ha : key a = loc
    · simp only [List.filter_cons, ha, beq_self_eq_true, if_true] at h
      simp only [List.find?_cons, ha, beq_self_eq_true]
      exact congrArg some (List.cons.inj h).1
    · have hx : x ∈ rest := by
        rcases List.mem_cons.mp hmem with rfl | hin
        · exact absurd hkey ha
        · exact hin
      rw [List.map_cons, List.nodup_cons] at hnodup
      have hfilter : rest.filter (fun f => key f == loc) = [x] := by
        simpa [List.filter_cons, ha] using h
      simp only [List.find?_cons, beq_eq_false_iff_ne.mpr ha]
      exact ih hnodup.2 hx hfilter

/-- When the keys are unique and the references resolve, the three joins turn
every matched order item into exactly one record, joined with its food, with the
order and with the table of the order. -/
theorem joins_resolved {α : Type} (s : Store α) (id : String) (o : OrderDoc) (t : TableDoc)
    (hfood : (s.food.map (fun f => f.food_id)).Nodup)
    (horder : (s.order.map (fun o => o.order_id)).Nodup)
    (htable : (s.table.map (fun t => t.table_id)).Nodup)
    (ho : o ∈ s.order) (hoid : o.order_id = some id)
    (ht : t ∈ s.table) (htid : t.table_id = o.table_id) :
    ∀ docs : List OrderItemDoc,
      (∀ d ∈ docs, d.order_id = some id ∧ ∃ f ∈ s.food, f.food_id = d.food_id) →
      joinTable s (joinOrder s (joinFood s docs)) =
        docs.map (fun d =>
          { item := d, food := foodOf s d, order := some o, table := some t }) := by
  intro docs
  induction docs with
  | nil => intro _; rfl
  | cons d rest ih =>
    intro h
    obtain ⟨hd, f, hf, hfid⟩ := h d (List.mem_cons_self _ _)
    have hrest := ih (fun d' hd' => h d' (List.mem_cons_of_mem _ hd'))
    have h1 : lookup s.food (fun f => f.food_id) d.food_id = [f] :=
      lookup_unique _ _ f hfid s.food hfood hf
    have h2 : lookup s.order (fun o => o.order_id) d.order_id = [o] :=
      lookup_unique _ _ o (hoid.trans hd.symm) s.order horder ho
    have h3 : lookup s.table (fun t => t.table_id) o.table_id = [t] :=
      lookup_unique _ _ t htid s.table htable ht
    have h4 : foodOf s d = some f := find_unique _ _ f hfid s.food hfood hf
    have hstep : joinFood s (d :: rest) =
        { item := d, food := some f, order := none, table := none } :: joinFood s rest := by
      simp [joinFood, h1, unwind]
    rw [hstep]
    have hstep2 : ∀ (j : Joined α) (js : List (Joined α)),
        joinOrder s (j :: js) =
          (unwind (lookup s.order (fun o => o.order_id) j.item.order_id)).map
            (fun o => { j with order := o }) ++ joinOrder s js := by
      intro j js
      simp [joinOrder]
    have hstep3 : ∀ (j : Joined α) (js : List (Joined α)),
        joinTable s (j :: js) =
          (unwind (lookup s.table (fun t => t.table_id)
            (j.order.bind (fun o => o.table_id)))).map
            (fun t => { j with table := t }) ++ joinTable s js := by
      intro j js
      simp [joinTable]
    rw [hstep2]
    simp only [h2, unwind, List.map_cons, List.map_nil, List.singleton_append]
    rw [hstep3]
    simp only [Option.bind, h3, unwind, List.map_cons, List.map_nil, List.singleton_append]
    rw [hrest, h4]

/-- The distinct keys of a non-empty list whose keys are all the same. -/
theorem distinctKeys_constant (k : GroupKey) :
    ∀ keys : List GroupKey, keys ≠ [] → (∀ j ∈ keys, j = k) → distinctKeys keys = [k] := by
  intro keys
  induction keys with
  | nil => intro h _; exact absurd rfl h
  | cons a rest ih =>
    intro _ hall
    have ha : a = k := hall a (List.mem_cons_self _ _)
    subst ha
    by_cases hrest : rest = []
    · subst hrest
      simp [distinctKeys]
    · have := ih hrest (fun j hj => hall j (List.mem_cons_of_mem _ hj))
      simp [distinctKeys, this]

/-- Every key of a list is among its distinct keys. -/
theorem mem_distinctKeys (k : GroupKey) :
    ∀ keys : List GroupKey, k ∈ keys → k ∈ distinctKeys keys := by
  intro keys
  induction keys with
  | nil => intro h; simp at h
  | cons a rest ih =>
    intro h
    by_cases hka : k = a
    · subst hka
      simp [distinctKeys]
    · rcases List.mem_cons.mp h with heq | hin
      · exact absurd heq hka
      · simp only [distinctKeys, List.mem_cons, List.mem_filter, decide_eq_true_eq]
        exact Or.inr ⟨ih hin, hka⟩

/-- The pipeline under the hypotheses of C1: unique keys, every matched item
resolving to a food, an order and a table, and at least one match. It yields
exactly one group; the payment due is the sum of the food prices of the matched
items, each counted once whatever its quantity, and the total count is the number
of matched items. -/
theorem pipeline_single_group {α : Type} [Zero α] [Add α] (id : String) (s : Store α)
    (hfood : (s.food.map (fun f => f.food_id)).Nodup)
    (horder : (s.order.map (fun o => o.order_id)).Nodup)
    (htable : (s.table.map (fun t => t.table_id)).Nodup)
    (hresolve : ∀ d ∈ matchStage id s.orderItem,
      (∃ f ∈ s.food, f.food_id = d.food_id) ∧
      ∃ o ∈ s.order, o.order_id = d.order_id ∧ ∃ t ∈ s.table, t.table_id = o.table_id)
    (hsome : matchStage id s.orderItem ≠ []) :
    ∃ g, pipeline id s = [g] ∧
      g.payment_due = sumAmounts ((matchStage id s.orderItem).map
        (fun d => (foodOf s d).bind (fun f => f.price))) ∧
      g.total_count = (matchStage id s.orderItem).length ∧
      g.order_items.map (fun r => r._id) = (matchStage id s.orderItem).map (fun d => d._id) := by
  have hid : ∀ d ∈ matchStage id s.orderItem, d.order_id = some id := by
    intro d hd
    have := (List.mem_filter.mp hd).2
    simpa using this
  obtain ⟨d0, rest0, hd0⟩ := List.exists_cons_of_ne_nil hsome
  have hd0mem : d0 ∈ matchStage id s.orderItem := by rw [hd0]; exact List.mem_cons_self _ _
  obtain ⟨-, o, ho, hoid, t, ht, htid⟩ := hresolve d0 hd0mem
  have hjoin := joins_resolved s id o t hfood horder htable ho (hoid.trans (hid d0 hd0mem))
    ht htid (matchStage id s.orderItem)
    (fun d hd => ⟨hid d hd, (hresolve d hd).1⟩)
  obtain ⟨k, hk⟩ : ∃ k : GroupKey, k = GroupKey.mk o.order_id t.table_id t.table_number :=
    ⟨_, rfl⟩
  obtain ⟨rows, hrows⟩ : ∃ rows : List (Row α), rows =
      (matchStage id s.orderItem).map (fun d => project
        (Joined.mk d (foodOf s d) (some o) (some t))) := ⟨_, rfl⟩
  have hkeys : ∀ r ∈ rows, keyOf r = k := by
    intro r hr
    rw [hrows] at hr
    obtain ⟨d, -, rfl⟩ := List.mem_map.mp hr
    rw [hk]
    rfl
  have hne : rows.map keyOf ≠ [] := by
    rw [hrows, hd0]
    simp
  have hmembers : rows.filter (fun r => decide (keyOf r = k)) = rows :=
    List.filter_eq_self.mpr (fun r hr => by simpa using hkeys r hr)
  have hpipe : pipeline id s =
      [finalProject (Grouped.mk k (sumAmounts (rows.map (fun r => r.amount))) rows.length
        rows)] := by
    unfold pipeline
    rw [hjoin, List.map_map]
    rw [show (project ∘ fun d => Joined.mk d (foodOf s d) (some o) (some t)) =
      (fun d => project (Joined.mk d (foodOf s d) (some o) (some t))) from rfl, ← hrows]
    unfold groupStage
    rw [distinctKeys_constant k (rows.map keyOf) hne
      (fun j hj => by
        obtain ⟨r, hr, rfl⟩ := List.mem_map.mp hj
        exact hkeys r hr)]
    simp only [List.map_cons, List.map_nil, hmembers]
  refine ⟨_, hpipe, ?_, ?_, ?_⟩
  · simp only [finalProject, hrows, List.map_map]
    rfl
  · simp only [finalProject, hrows, List.length_map]
  · simp only [finalProject, hrows, List.map_map]
    rfl

/-- Unwinding with preserved nulls always yields an output, the null one when
the joined array is empty. -/
theorem unwind_exists {β : Type} (joined : List β) :
    ∃ x, x ∈ unwind joined ∧ (joined = [] → x = none) := by
  cases joined with
  | nil => exact ⟨none, by simp [unwind], fun _ => rfl⟩
  | cons a rest => exact ⟨some a, by simp [unwind], fun h => by cases h⟩

/-- The join with `food` keeps every order item, without food when no food
matches. -/
theorem joinFood_keeps {α : Type} (s : Store α) (docs : List OrderItemDoc) (d : OrderItemDoc)
    (hd : d ∈ docs) :
    ∃ j ∈ joinFood s docs, j.item = d ∧
      ((∀ f ∈ s.food, f.food_id ≠ d.food_id) → j.food = none) := by
  obtain ⟨x, hx, hnone⟩ := unwind_exists (lookup s.food (fun f => f.food_id) d.food_id)
  refine ⟨{ item := d, food := x, order := none, table := none }, ?_, rfl, ?_⟩
  · simp only [joinFood, List.mem_flatMap, List.mem_map]
    exact ⟨d, hd, x, hx, rfl⟩
  · intro hno
    apply hnone
    unfold lookup
    rw [List.filter_eq_nil_iff]
    intro f hf
    simpa using hno f hf

/-- The join with `order` keeps every record, with its item and its food. -/
theorem joinOrder_keeps {α : Type} (s : Store α) (docs : List (Joined α)) (j : Joined α)
    (hj : j ∈ docs) : ∃ j' ∈ joinOrder s docs, j'.item = j.item ∧ j'.food = j.food := by
  obtain ⟨x, hx, -⟩ := unwind_exists (lookup s.order (fun o => o.order_id) j.item.order_id)
  refine ⟨{ j with order := x }, ?_, rfl, rfl⟩
  simp only [joinOrder, List.mem_flatMap, List.mem_map]
  exact ⟨j, hj, x, hx, rfl⟩

/-- The join with `table` keeps every record, with its item and its food. -/
theorem joinTable_keeps {α : Type} (s : Store α) (docs : List (Joined α)) (j : Joined α)
    (hj : j ∈ docs) : ∃ j' ∈ joinTable s docs, j'.item = j.item ∧ j'.food = j.food := by
  obtain ⟨x, hx, -⟩ := unwind_exists
    (lookup s.table (fun t => t.table_id) (j.order.bind (fun o => o.table_id)))
  refine ⟨{ j with table := x }, ?_, rfl, rfl⟩
  simp only [joinTable, List.mem_flatMap, List.mem_map]
  exact ⟨j, hj, x, hx, rfl⟩

/-- The `$group` stage puts every record in the group of its key. -/
theorem groupStage_keeps {α : Type} [Zero α] [Add α] (rows : List (Row α)) (r : Row α)
    (hr : r ∈ rows) : ∃ g ∈ groupStage rows, r ∈ g.order_items := by
  refine ⟨_, List.mem_map.mpr ⟨keyOf r,
    mem_distinctKeys _ _ (List.mem_map_of_mem keyOf hr), rfl⟩, ?_⟩
  simp [hr]

/-- The pipeline under the hypotheses of C5: every order item with the order
identifier is in the `order_items` of some group, with its `_id` and quantity,
and with the four food fields absent when no food has its `food_id`. -/
theorem pipeline_keeps_every_item {α : Type} [Zero α] [Add α] (id : String) (s : Store α)
    (d : OrderItemDoc) (hd : d ∈ s.orderItem) (hid : d.order_id = some id) :
    ∃ g ∈ pipeline id s, ∃ r ∈ g.order_items, r._id = d._id ∧ r.quantity = d.quantity ∧
      ((∀ f ∈ s.food, f.food_id ≠ d.food_id) →
        r.amount = none ∧ r.price = none ∧ r.food_name = none ∧ r.food_image = none) := by
  have hmatch : d ∈ matchStage id s.orderItem := by
    simp [matchStage, hd, hid]
  obtain ⟨j1, hj1, hitem1, hfood1⟩ := joinFood_keeps s _ d hmatch
  obtain ⟨j2, hj2, hitem2, hfood2⟩ := joinOrder_keeps s _ j1 hj1
  obtain ⟨j3, hj3, hitem3, hfood3⟩ := joinTable_keeps s _ j2 hj2
  obtain ⟨g, hg, hrow⟩ := groupStage_keeps _ (project j3) (List.mem_map_of_mem project hj3)
  have hitem : j3.item = d := by rw [hitem3, hitem2, hitem1]
  refine ⟨finalProject g, List.mem_map_of_mem finalProject hg, project j3, hrow, ?_, ?_, ?_⟩
  · simp [project, hitem]
  · simp [project, hitem]
  · intro hno
    have hfood : j3.food = none := by rw [hfood3, hfood2, hfood1 hno]
    simp [project, hfood]

/-! ## The read handlers -/

/-- Whenever `ItemsByOrder` returns, it returns an empty sequence and a nil
error: the second drain of lines 131-133 finds an exhausted cursor and overwrites
what the first drain stored. -/
theorem ItemsByOrder_returns_nothing {α : Type} [Zero α] [Add α] (faults : Faults)
    (id : String) (s : Store α) (value : List (Group α)) (err : Option String)
    (h : ItemsByOrder faults id s = GoResult.returned value err) :
    value = [] ∧ err = none := by
  unfold ItemsByOrder Aggregate Cursor.All at h
  rcases faults with ⟨call, cursor⟩
  cases call <;> cases cursor <;> simp at h
  obtain ⟨hvalue, herr⟩ := h
  exact ⟨by rw [hvalue], by rw [herr]⟩

/-- Without a fault, `GetOrderItemsByOrder` answers 200 with the sequence
`ItemsByOrder` returned. -/
theorem GetOrderItemsByOrder_success {α : Type} [Zero α] [Add α] (orderId : String)
    (s : Store α) :
    ∃ value, ItemsByOrder noFaults orderId s = GoResult.returned value none ∧
      GetOrderItemsByOrder noFaults orderId s = Outcome.json 200 value :=
  ⟨[], rfl, rfl⟩

/-- The two answers of `GetOrderItems`: 200 with every document of the collection,
in order, when the store answers without error, and 500 when `Find` fails. -/
theorem GetOrderItems_answers {δ : Type} (docs : List δ) (e : String)
    (cursor : Option String) :
    GetOrderItems noFaults docs = Outcome.json 200 docs ∧
    GetOrderItems { call := some e, cursor := cursor } docs =
      Outcome.errorJSON 500 "error occured while fetching order items list" :=
  ⟨rfl, rfl⟩

/-- C7, where the code departs from it: when the `Aggregate` call fails, and when
the drain of its cursor fails, `ItemsByOrder` panics and `GetOrderItemsByOrder`
ends in that panic; it writes neither status 500 nor the error body. -/
theorem GetOrderItemsByOrder_panics_on_failure {α : Type} [Zero α] [Add α]
    (orderId : String) (s : Store α) (e : String) (cursor : Option String) :
    GetOrderItemsByOrder { call := some e, cursor := cursor } orderId s = Outcome.panic e ∧
    GetOrderItemsByOrder { call := none, cursor := some e } orderId s = Outcome.panic e :=
  ⟨rfl, rfl⟩

/-- C8, where the code departs from it: when the drain of the cursor fails,
`GetOrderItems` ends in `log.Fatal`; it answers neither 200 nor 500. -/
theorem GetOrderItems_fatal_on_cursor_error {δ : Type} (docs : List δ) (e : String) :
    GetOrderItems { call := none, cursor := some e } docs = Outcome.fatal e :=
  rfl

/-- C1, where the code departs from it: the sample store has unique keys and
both items of order `o1` resolve; the pipeline yields one group, with payment due
12 for two items, and `ItemsByOrder` returns no group at all. -/
theorem ItemsByOrder_returns_no_group :
    ((sampleStore.food.map (fun f => f.food_id)).Nodup ∧
      (sampleStore.order.map (fun o => o.order_id)).Nodup ∧
      (sampleStore.table.map (fun t => t.table_id)).Nodup) ∧
    (∀ d ∈ matchStage "o1" sampleStore.orderItem,
      (∃ f ∈ sampleStore.food, f.food_id = d.food_id) ∧
      ∃ o ∈ sampleStore.order, o.order_id = d.order_id ∧
        ∃ t ∈ sampleStore.table, t.table_id = o.table_id) ∧
    (pipeline "o1" sampleStore).map (fun g => (g.payment_due, g.total_count)) = [(12, 2)] ∧
    ItemsByOrder noFaults "o1" sampleStore = GoResult.returned [] none :=
  ⟨by decide, by decide, by decide, by decide⟩

/-- C5, where the code departs from it: on the store whose only order item names
an unknown food, the pipeline keeps the item, without food fields, and
`ItemsByOrder` returns no group, so the item appears nowhere. -/
theorem ItemsByOrder_loses_unresolved_item :
    (pipeline "o7" orphanStore).map (fun g => g.order_items) =
      [[{ _id := "i9", amount := none, food_name := none, food_image := none,
          table_number := some 4, table_id := some "t1", order_id := some "o7",
          price := none, quantity := some "S" }]] ∧
    ItemsByOrder noFaults "o7" orphanStore = GoResult.returned [] none :=
  ⟨by decide, by decide⟩

/-! ## UpdateOrderItem and GetOrderItem -/

/-- C4, where the code departs from it: whatever the request body holds, the
`$set` document has the single field `updated_at`; a body that supplies the
quantity does not get it written. -/
theorem UpdateOrderItem_ignores_body {α : Type} (env : Env α) (body : OrderItem α) :
    UpdateOrderItem.updateObj env body = [("updated_at", Value.time (env.now 0))] ∧
    (UpdateOrderItem.updateObj env body).get "quantity" = none :=
  ⟨rfl, rfl⟩

/-- C10: the lookup filters on `orderItem_id` while the update filters on, and
upserts under, `order_item_id`; so the record that `UpdateOrderItem` upserts into
an empty collection for an identifier is not found by `GetOrderItem` for the same
identifier, which answers 500. -/
theorem GetOrderItem_misses_upserted_record {α : Type} [DecidableEq α] (env : Env α)
    (orderItemId : String) (body : OrderItem α) (hupdate : env.updateErr = none) :
    (GetOrderItem.filter orderItemId : Document α).map Prod.fst ≠
      (UpdateOrderItem.filter orderItemId : Document α).map Prod.fst ∧
    (∃ d, (UpdateOrderItem env [] orderItemId body).1 = [d] ∧
      d.get "order_item_id" = some (Value.str orderItemId) ∧
      d.get "orderItem_id" = none) ∧
    (UpdateOrderItem env [] orderItemId body).2 =
      Outcome.json 200 { MatchedCount := 0, ModifiedCount := 0, UpsertedCount := 1,
                         UpsertedID := some (env.NewObjectID 0) } ∧
    GetOrderItem env (UpdateOrderItem env [] orderItemId body).1 orderItemId =
      Outcome.errorJSON 500 "error occured while fetching order item list" := by
  have hrun : UpdateOrderItem env [] orderItemId body =
      ([[("_id", Value.oid (env.NewObjectID 0)), ("order_item_id", Value.str orderItemId),
          ("updated_at", Value.time (env.now 0))]],
        Outcome.json 200 { MatchedCount := 0, ModifiedCount := 0, UpsertedCount := 1,
                           UpsertedID := some (env.NewObjectID 0) }) := by
    simp [UpdateOrderItem, hupdate, UpdateOne, updateFirst, UpdateOrderItem.filter,
      UpdateOrderItem.updateObj, applySet, Document.set, OrderItem.zero]
  rw [hrun]
  refine ⟨by simp [GetOrderItem.filter, UpdateOrderItem.filter],
    ⟨_, rfl, by simp [Document.get], by simp [Document.get]⟩, rfl, ?_⟩
  cases hfind : env.findOneErr <;>
    simp [GetOrderItem, FindOne, hfind, GetOrderItem.filter, matchesFilter, Document.get,
      Except.bind, bind]

/-- C10 on the sample environment, for the identifier `abc`. -/
theorem GetOrderItem_misses_upserted_record_witness :
    sampleEnv.updateErr = none ∧
    (GetOrderItem.filter "abc" : Document Int).map Prod.fst ≠
      (UpdateOrderItem.filter "abc" : Document Int).map Prod.fst ∧
    (∃ d, (UpdateOrderItem sampleEnv [] "abc" quantityOnly).1 = [d] ∧
      d.get "order_item_id" = some (Value.str "abc") ∧
      d.get "orderItem_id" = none) ∧
    (UpdateOrderItem sampleEnv [] "abc" quantityOnly).2 =
      Outcome.json 200 { MatchedCount := 0, ModifiedCount := 0, UpsertedCount := 1,
                         UpsertedID := some (sampleEnv.NewObjectID 0) } ∧
    GetOrderItem sampleEnv (UpdateOrderItem sampleEnv [] "abc" quantityOnly).1 "abc" =
      Outcome.errorJSON 500 "error occured while fetching order item list" :=
  ⟨rfl, GetOrderItem_misses_upserted_record sampleEnv "abc" quantityOnly rfl⟩

end OrderItemController
